import Mathlib

/-!
Verification of the execution core of `db_client.py`: target routing
(`connect_database`), result rendering (`format_rows`), statement splitting
(`_split_statements`), and the client lifecycle (`DatabaseClient`).

Python strings are modelled as Lean `String` (a list of characters); the
Python text primitives the client uses (`str.strip`, `str.rstrip`,
`str.splitlines`, `str.join`, `str.startswith`, `str.endswith`, `str.ljust`)
are embedded below over `List Char`.  Exceptions are modelled with
`Option`/`Except`: `none`/`.error` marks an exception escaping the modelled
code. Database engines are out of scope and appear as oracle parameters.
-/

namespace DBClient

/-- Characters Python's `str.strip()`/`str.rstrip()` treat as whitespace
(the `str.isspace` set: ASCII whitespace, the information separators,
NEL, NBSP and the Unicode space/line/paragraph separators). -/
def pyIsSpace (c : Char) : Bool :=
  c = ' ' || c = '\t' || c = '\n' || c = '\x0b' || c = '\x0c' || c = '\r' ||
  (0x1c ≤ c.toNat && c.toNat ≤ 0x1f) || c.toNat = 0x85 || c.toNat = 0xa0 ||
  c.toNat = 0x1680 || (0x2000 ≤ c.toNat && c.toNat ≤ 0x200a) ||
  c.toNat = 0x2028 || c.toNat = 0x2029 || c.toNat = 0x202f ||
  c.toNat = 0x205f || c.toNat = 0x3000

/-- Line boundaries recognised by Python's `str.splitlines` (besides the
two-character sequence `"\r\n"`, handled separately). -/
def isLineBreak (c : Char) : Bool :=
  c = '\n' || c = '\r' || c = '\x0b' || c = '\x0c' ||
  c = '\x1c' || c = '\x1d' || c = '\x1e' ||
  c.toNat = 0x85 || c.toNat = 0x2028 || c.toNat = 0x2029

/-- Drop the maximal run of characters satisfying `p` from the end of a list
(the character-level core of Python's `str.rstrip`). -/
def dropTrail (p : Char → Bool) (l : List Char) : List Char :=
  (l.reverse.dropWhile p).reverse

/-- Python `str.strip()` on the character list: whitespace removed from both
ends. -/
def pyStripL (l : List Char) : List Char :=
  (dropTrail pyIsSpace l).dropWhile pyIsSpace

/-- Python `str.strip()`. -/
def pyStrip (s : String) : String :=
  String.mk (pyStripL s.data)

/-- Python `str.rstrip()` (no argument: strip trailing whitespace). -/
def pyRstrip (s : String) : String :=
  String.mk (dropTrail pyIsSpace s.data)

/-- Python `str.rstrip(";")`: strip every trailing `;`. -/
def pyRstripSemi (s : String) : String :=
  String.mk (dropTrail (fun c => c == ';') s.data)

/-- Python `s.endswith(c)` for a one-character suffix. -/
def pyEndsWith (s : String) (c : Char) : Bool :=
  match s.data.getLast? with
  | some x => x == c
  | none => false

/-- Python `s.startswith(p)`. -/
def pyStartsWith (s p : String) : Bool :=
  p.data.isPrefixOf s.data

/-- Python `sep.join(parts)`. -/
def pyJoin (sep : String) : List String → String
  | [] => ""
  | [a] => a
  | a :: b :: rest => a ++ sep ++ pyJoin sep (b :: rest)

/-- Worker for `str.splitlines`: `acc` holds the current line's characters
in reverse.  A trailing line terminator does not open a final empty line. -/
def pySplitlinesGo : List Char → List Char → List String
  | [], acc => if acc.isEmpty then [] else [String.mk acc.reverse]
  | [c], acc =>
    if isLineBreak c then [String.mk acc.reverse]
    else [String.mk (c :: acc).reverse]
  | c1 :: c2 :: rest, acc =>
    if c1 = '\r' && c2 = '\n' then
      String.mk acc.reverse :: pySplitlinesGo rest []
    else if isLineBreak c1 then
      String.mk acc.reverse :: pySplitlinesGo (c2 :: rest) []
    else
      pySplitlinesGo (c2 :: rest) (c1 :: acc)

/-- Python `str.splitlines()`. -/
def pySplitlines (s : String) : List String :=
  pySplitlinesGo s.data []

/-- Characters of `"\n".join(text.splitlines())` when the only line
terminator occurring in `text` is `"\n"`: the text with one trailing
newline (if any) removed. -/
def rejoin : List Char → List Char
  | [] => []
  | [c] => if c = '\n' then [] else [c]
  | c1 :: c2 :: rest => c1 :: rejoin (c2 :: rest)

/-- A single apostrophe, kept out of string literals. -/
def squote : String := String.mk ['\'']

/-- The message of the `SystemExit` raised when `psycopg2` is missing
(source line 63-65). -/
def missingDriverMsg : String :=
  "psycopg2 is required for PostgreSQL connections. Install with " ++
    squote ++ "pip install psycopg2-binary" ++ squote ++ "."

/-- Outcome of `connect_database` (source lines 47-69).  `systemExit msg`
models `raise SystemExit(msg)`: in Python `SystemExit` is not a subclass of
`Exception`, escapes `except Exception` handlers, and terminates the
process when unhandled.  `remoteConnect target` models reaching
`psycopg2.connect(target)` (the only point where network I/O can happen);
`embeddedConnect path` models `sqlite3.connect(path)`. -/
inductive ConnectOutcome where
  | systemExit (msg : String)
  | remoteConnect (target : String)
  | embeddedConnect (path : String)
  deriving DecidableEq

/-- Whether a `connect_database` outcome is a process-level abort rather
than a value or catchable typed error. -/
def isProcessLevelAbort : ConnectOutcome → Bool
  | .systemExit _ => true
  | _ => false

/-- Whether a `connect_database` outcome took the remote-backend path
(either reaching `psycopg2.connect` or aborting on the missing driver)
as opposed to the embedded `sqlite3` path. -/
def takesRemotePath : ConnectOutcome → Bool
  | .embeddedConnect _ => false
  | _ => true

/-- `connect_database` (source lines 47-69), with the presence of the
optional `psycopg2` driver as an explicit parameter (`import psycopg2`
succeeds iff `psycopg2Available`). -/
def connect_database (psycopg2Available : Bool) (db_path : String) : ConnectOutcome :=
  if pyStartsWith db_path "postgres://" || pyStartsWith db_path "postgresql://" then
    if psycopg2Available then
      ConnectOutcome.remoteConnect db_path
    else
      ConnectOutcome.systemExit missingDriverMsg
  else
    ConnectOutcome.embeddedConnect db_path

/-- Scalar cell values produced by the engines: `None`, `int`, `str` and
`bytes` (floating-point reals are outside the embedding). -/
inductive SqlValue where
  | null
  | intV (i : Int)
  | textV (s : String)
  | blobV (bytes : List Nat)
  deriving DecidableEq

/-- Lowercase hexadecimal digit for `n < 16`. -/
def hexChar (n : Nat) : Char :=
  if n < 10 then Char.ofNat (48 + n) else Char.ofNat (87 + n)

/-- One byte of Python's `bytes.hex()`: two lowercase hex digits. -/
def byteHex (n : Nat) : String :=
  String.mk [hexChar (n / 16 % 16), hexChar (n % 16)]

/-- `_format_cell` (source lines 90-95): `None → "NULL"`, `bytes → hex()`,
otherwise `str(value)`. -/
def _format_cell : SqlValue → String
  | .null => "NULL"
  | .blobV bytes => String.join (bytes.map byteHex)
  | .intV i => toString i
  | .textV s => s

/-- Python `s.ljust(w)`: pad on the right with spaces to width `w`
(never truncates). -/
def ljust (s : String) (w : Nat) : String :=
  s ++ String.mk (List.replicate (w - s.length) ' ')

/-- The inner loop of the width computation in `format_rows` (source lines
76-78): `col_widths[idx] = max(col_widths[idx], len(value))` for each cell
of one row.  `none` models the `IndexError` raised when the row has more
cells than there are widths. -/
def updateWidthsAux : List Nat → List String → Option (List Nat)
  | widths, [] => some widths
  | [], _ :: _ => none
  | w :: ws, v :: vs =>
    (updateWidthsAux ws vs).map (fun ws' => Nat.max w v.length :: ws')

/-- The outer loop of the width computation, row by row; the first
`IndexError` aborts the whole computation. -/
def widthsLoop : List (List String) → List Nat → Option (List Nat)
  | [], ws => some ws
  | row :: rest, ws =>
    match updateWidthsAux ws row with
    | none => none
    | some ws' => widthsLoop rest ws'

/-- `col_widths` of `format_rows` (source lines 75-78): start from the
header lengths, then fold every data row through the update loop. -/
def computeWidths (columns : List String) (data : List (List String)) : Option (List Nat) :=
  widthsLoop data (columns.map String.length)

/-- The `header` string of `format_rows` (source line 80).  The Python code
indexes `col_widths[idx]` while iterating over `columns`; `col_widths`
always has exactly the length of `columns`, so the pairwise zip is the same
computation. -/
def headerLine (columns : List String) (ws : List Nat) : String :=
  pyJoin " | " (List.zipWith ljust columns ws)

/-- The `separator` string of `format_rows` (source line 81). -/
def separatorLine (ws : List Nat) : String :=
  pyJoin "-+-" (ws.map (fun w => String.mk (List.replicate w '-')))

/-- One body line of `format_rows` (source line 83).  The Python code
indexes `col_widths[idx]` while iterating over the row; when the width
computation succeeded every row has at most `col_widths.length` cells, so
the pairwise zip is the same computation. -/
def bodyLine (ws : List Nat) (row : List String) : String :=
  pyJoin " | " (List.zipWith ljust row ws)

/-- The `body` string of `format_rows` (source lines 82-85). -/
def bodyBlock (ws : List Nat) (data : List (List String)) : String :=
  pyJoin "\n" (data.map (bodyLine ws))

/-- `"\n".join(filter(None, parts))` (source line 87): empty strings are
falsy and are dropped before joining. -/
def assemble (parts : List String) : String :=
  pyJoin "\n" (parts.filter (fun s => !(s == "")))

/-- `format_rows` (source lines 72-87).  `none` models the uncaught
`IndexError` from the width computation. -/
def format_rows (columns : List String) (rows : List (List SqlValue)) : Option String :=
  let data := rows.map (List.map _format_cell)
  (computeWidths columns data).map (fun col_widths =>
    assemble [headerLine columns col_widths, separatorLine col_widths,
      bodyBlock col_widths data])

/-- Result of `cursor.execute(sql)` together with the cursor attributes the
client reads afterwards: `raises msg` models a raised `Exception` whose
`str` is `msg`; `done description rows rowcount` models a normal return
with the cursor's `description` (already reduced to the column names
`column[0]`, `none` for Python `None`), `fetchall()` rows and `rowcount`. -/
inductive ExecResult where
  | raises (msg : String)
  | done (description : Option (List String)) (rows : List (List SqlValue)) (rowcount : Int)

/-- Python truthiness of `cursor.description` (`if cursor.description:`):
`None` and the empty list are falsy. -/
def descTruthy : Option (List String) → Bool
  | none => false
  | some cols => !cols.isEmpty

/-- `execute_statement` (source lines 98-117) against a cursor oracle
`run`.  Only `cursor.execute` is inside the `try`; `none` models an
exception escaping (an `IndexError` from `format_rows`). -/
def execute_statement (run : String → ExecResult) (sql : String) : Option String :=
  match run sql with
  | .raises msg => some ("Error: " ++ msg)
  | .done description rows rowcount =>
    if descTruthy description then
      format_rows (description.getD []) rows
    else
      some ("OK (" ++ toString rowcount ++ " rows affected)")

/-- The observable state of a `DatabaseClient` (source lines 120-168):
whether `self.connection` and `self.cursor` are non-`None`.  The backends
themselves are oracles, so only the handles' presence is tracked. -/
structure DatabaseClient where
  target : String
  connection : Bool
  cursor : Bool
  deriving DecidableEq

/-- `DatabaseClient.connect` on its success path (source lines 128-132):
close any previous connection, then open a connection and cursor for the
current target. -/
def DatabaseClient.connect (c : DatabaseClient) : DatabaseClient :=
  { target := c.target, connection := true, cursor := true }

/-- `DatabaseClient.ensure_cursor` (source lines 134-138): connect first if
no cursor is open (a live cursor object is always truthy). -/
def DatabaseClient.ensure_cursor (c : DatabaseClient) : DatabaseClient :=
  if c.cursor then c else c.connect

/-- `DatabaseClient.run_statement` (source lines 140-144).  Returns the
outcome text, whether `self.connection.commit()` was invoked, and the
client state afterwards; `none` models an exception escaping from
`execute_statement` (in which case `self.commit()` is never reached).
`DatabaseClient.commit` (source lines 152-154) commits exactly when a
connection is open. -/
def DatabaseClient.run_statement (run : String → ExecResult) (c : DatabaseClient)
    (sql : String) : Option (String × Bool × DatabaseClient) :=
  let c' := c.ensure_cursor
  match execute_statement run sql with
  | none => none
  | some result => some (result, c'.connection, c')

/-- `contextlib.suppress(Exception)` around a body whose exceptions are
modelled in `Except`: any error is caught and discarded. -/
def suppress (body : Except String Unit) : Except String Unit :=
  match body with
  | .error _ => Except.ok ()
  | .ok _ => Except.ok ()

/-- `DatabaseClient.close` (source lines 156-161): inside
`contextlib.suppress(Exception)`, call `self.connection.close()` if a
connection is open (`connClose` is that call's outcome), then set both
handles to `None`.  The `Except` codomain records whether an exception
escapes to the caller. -/
def DatabaseClient.close (c : DatabaseClient) (connClose : Except String Unit) :
    Except String DatabaseClient :=
  match suppress (if c.connection then connClose else Except.ok ()) with
  | .error e => Except.error e
  | .ok _ => Except.ok { target := c.target, connection := false, cursor := false }

/-- End-of-input handling of `_split_statements` (source lines 203-206):
emit the remaining buffer if it yields a non-empty statement. -/
def splitFinal (buffer : List String) : List String :=
  if buffer.isEmpty then []
  else
    let statement := pyRstripSemi (pyStrip (pyJoin "\n" buffer))
    if statement = "" then [] else [statement]

/-- The line loop of `_split_statements` (source lines 195-201): append the
line to the buffer; when its right-stripped form ends with `;`, emit the
joined, stripped, `;`-stripped buffer (if non-empty) and reset. -/
def splitGo : List String → List String → List String
  | [], buffer => splitFinal buffer
  | line :: rest, buffer =>
    let buffer' := buffer ++ [line]
    if pyEndsWith (pyRstrip line) ';' then
      let statement := pyRstripSemi (pyStrip (pyJoin "\n" buffer'))
      (if statement = "" then [] else [statement]) ++ splitGo rest []
    else
      splitGo rest buffer'

/-- `_split_statements` (source lines 190-208). -/
def _split_statements (sql : String) : List String :=
  splitGo (pySplitlines sql) []

/-! ## Basic facts about the embedded primitives -/

theorem data_of_append (a b : String) : (a ++ b).data = a.data ++ b.data := rfl

theorem suppress_ok (body : Except String Unit) : suppress body = Except.ok () := by
  cases body <;> rfl

theorem ensure_cursor_connection (c : DatabaseClient) (hinv : c.cursor = true → c.connection = true) :
    c.ensure_cursor.connection = true := by
  unfold DatabaseClient.ensure_cursor
  cases hc : c.cursor with
  | true => simpa using hinv hc
  | false => rfl

theorem updateWidthsAux_isSome (row : List String) (ws : List Nat) :
    (updateWidthsAux ws row).isSome = true ↔ row.length ≤ ws.length := by
  induction row generalizing ws with
  | nil => simp [updateWidthsAux]
  | cons v vs ih =>
    cases ws with
    | nil => simp [updateWidthsAux]
    | cons w wsr =>
      cases h : updateWidthsAux wsr vs with
      | none =>
        have hlt : ¬ vs.length ≤ wsr.length := by
          have := ih wsr
          rw [h] at this
          simpa using this
        simp [updateWidthsAux, h]
        omega
      | some ws' =>
        have hle : vs.length ≤ wsr.length := by
          have := ih wsr
          rw [h] at this
          simpa using this
        simp [updateWidthsAux, h]
        omega

theorem updateWidthsAux_length (row : List String) (ws ws' : List Nat)
    (h : updateWidthsAux ws row = some ws') : ws'.length = ws.length := by
  induction row generalizing ws ws' with
  | nil =>
    simp [updateWidthsAux] at h
    simp [h]
  | cons v vs ih =>
    cases ws with
    | nil => simp [updateWidthsAux] at h
    | cons w wsr =>
      cases h2 : updateWidthsAux wsr vs with
      | none => simp [updateWidthsAux, h2] at h
      | some ws2 =>
        simp [updateWidthsAux, h2] at h
        subst h
        simpa using ih wsr ws2 h2

theorem isSome_opt_map {α β : Type} (f : α → β) (o : Option α) :
    (o.map f).isSome = o.isSome := by
  cases o <;> rfl

theorem widthsLoop_isSome (data : List (List String)) (ws : List Nat) :
    (widthsLoop data ws).isSome = true ↔ ∀ row ∈ data, row.length ≤ ws.length := by
  induction data generalizing ws with
  | nil => simp [widthsLoop]
  | cons r d ih =>
    simp only [widthsLoop]
    cases h : updateWidthsAux ws r with
    | none =>
      have hr : ¬ r.length ≤ ws.length := by
        have := updateWidthsAux_isSome r ws
        rw [h] at this
        simpa using this
      simp [hr]
    | some ws' =>
      have hr : r.length ≤ ws.length := by
        have := updateWidthsAux_isSome r ws
        rw [h] at this
        simpa using this
      rw [ih ws', updateWidthsAux_length r ws ws' h]
      simp [hr]

theorem mem_of_head? {α : Type} {l : List α} {a : α} (h : l.head? = some a) : a ∈ l := by
  cases l with
  | nil => simp at h
  | cons x xs =>
    simp at h
    simp [h]

theorem head?_dropWhileBool (p : Char → Bool) (l : List Char) (c : Char)
    (h : (l.dropWhile p).head? = some c) : p c = false := by
  have := List.head?_dropWhile_not p l
  rw [h] at this
  exact this

theorem dropTrail_append (p : Char → Bool) (l : List Char) :
    dropTrail p l ++ (l.reverse.takeWhile p).reverse = l := by
  unfold dropTrail
  rw [← List.reverse_append, List.takeWhile_append_dropWhile, List.reverse_reverse]

theorem mem_dropTrail (p : Char → Bool) (l : List Char) (c : Char)
    (h : c ∈ dropTrail p l) : c ∈ l := by
  rw [← dropTrail_append p l]
  exact List.mem_append_left _ h

theorem mem_dropWhileChars (p : Char → Bool) (l : List Char) (c : Char)
    (h : c ∈ l.dropWhile p) : c ∈ l := by
  rw [← List.takeWhile_append_dropWhile p l]
  exact List.mem_append_right _ h

theorem mem_pyStripL (l : List Char) (c : Char) (h : c ∈ pyStripL l) : c ∈ l :=
  mem_dropTrail pyIsSpace l c (mem_dropWhileChars pyIsSpace _ c h)

theorem head?_dropTrail (p : Char → Bool) (l : List Char) (h : dropTrail p l ≠ []) :
    (dropTrail p l).head? = l.head? := by
  conv_rhs => rw [← dropTrail_append p l]
  cases hd : dropTrail p l with
  | nil => exact absurd hd h
  | cons x xs => simp [hd]

theorem getLast?_dropTrail (p : Char → Bool) (l : List Char) (c : Char)
    (h : (dropTrail p l).getLast? = some c) : p c = false := by
  unfold dropTrail at h
  rw [List.getLast?_reverse] at h
  exact head?_dropWhileBool p _ c h

theorem pyRstripSemi_pyStrip_data (t : String) :
    (pyRstripSemi (pyStrip t)).data = dropTrail (fun c => c == ';') (pyStripL t.data) := rfl

theorem pyRstripSemi_pyStrip_head (t : String) (c : Char)
    (h : (pyRstripSemi (pyStrip t)).data.head? = some c) : pyIsSpace c = false := by
  rw [pyRstripSemi_pyStrip_data] at h
  have hne : dropTrail (fun c => c == ';') (pyStripL t.data) ≠ [] := by
    intro h0
    rw [h0] at h
    simp at h
  rw [head?_dropTrail _ _ hne] at h
  exact head?_dropWhileBool pyIsSpace _ c h

theorem pyRstripSemi_pyStrip_last (t : String) (c : Char)
    (h : (pyRstripSemi (pyStrip t)).data.getLast? = some c) : c ≠ ';' := by
  rw [pyRstripSemi_pyStrip_data] at h
  have := getLast?_dropTrail _ _ c h
  simpa using this

theorem mem_splitGo (lines : List String) (buffer : List String) (s : String)
    (h : s ∈ splitGo lines buffer) :
    (∃ t, s = pyRstripSemi (pyStrip t)) ∧ s ≠ "" := by
  induction lines generalizing buffer with
  | nil =>
    simp only [splitGo, splitFinal] at h
    split at h
    · simp at h
    · split at h
      · simp at h
      · next hne =>
        simp at h
        subst h
        exact ⟨⟨pyJoin "\n" buffer, rfl⟩, hne⟩
  | cons line rest ih =>
    simp only [splitGo] at h
    split at h
    · rcases List.mem_append.mp h with h1 | h2
      · split at h1
        · simp at h1
        · next hne =>
          simp at h1
          subst h1
          exact ⟨⟨pyJoin "\n" (buffer ++ [line]), rfl⟩, hne⟩
      · exact ih [] h2
    · exact ih (buffer ++ [line]) h

theorem getLast?_mem {l : List Char} {a : Char} (h : l.getLast? = some a) : a ∈ l := by
  rw [← List.head?_reverse] at h
  exact List.mem_reverse.mp (mem_of_head? h)

theorem String_mk_eq_empty_iff (l : List Char) : String.mk l = "" ↔ l = [] := by
  constructor
  · intro h
    have := congrArg String.data h
    simpa using this
  · intro h
    subst h
    rfl

theorem pySplitlinesGo_ne_nil (l acc : List Char) (hl : l ≠ []) :
    pySplitlinesGo l acc ≠ [] := by
  induction l, acc using pySplitlinesGo.induct with
  | case1 acc h => exact absurd rfl hl
  | case2 acc h => exact absurd rfl hl
  | case3 c acc h => simp [pySplitlinesGo, h]
  | case4 c acc h => simp [pySplitlinesGo, h]
  | case5 c1 c2 rest acc h ih => simp [pySplitlinesGo, h]
  | case6 c1 c2 rest acc h1 h2 ih => simp [pySplitlinesGo, h1, h2]
  | case7 c1 c2 rest acc h1 h2 ih =>
    simp only [pySplitlinesGo, if_neg h1, if_neg h2]
    exact ih (by simp)

theorem mem_pySplitlinesGo_chars (l acc : List Char) :
    ∀ x ∈ pySplitlinesGo l acc, ∀ c ∈ x.data, c ∈ acc ∨ c ∈ l := by
  induction l, acc using pySplitlinesGo.induct with
  | case1 acc h =>
    intro x hx
    simp [pySplitlinesGo, h] at hx
  | case2 acc h =>
    intro x hx c hc
    simp [pySplitlinesGo, h] at hx
    subst hx
    left
    simpa using hc
  | case3 c0 acc h =>
    intro x hx c hc
    simp [pySplitlinesGo, h] at hx
    subst hx
    left
    simpa using hc
  | case4 c0 acc h =>
    intro x hx c hc
    simp [pySplitlinesGo, h] at hx
    subst hx
    simp at hc
    rcases hc with hc | hc
    · left; exact hc
    · right; simp [hc]
  | case5 c1 c2 rest acc h ih =>
    intro x hx c hc
    simp only [pySplitlinesGo, if_pos h] at hx
    rcases List.mem_cons.mp hx with hx | hx
    · subst hx
      left
      simpa using hc
    · rcases ih x hx c hc with h0 | h0
      · simp at h0
      · right; simp [h0]
  | case6 c1 c2 rest acc h1 h2 ih =>
    intro x hx c hc
    simp only [pySplitlinesGo, if_neg h1, if_pos h2] at hx
    rcases List.mem_cons.mp hx with hx | hx
    · subst hx
      left
      simpa using hc
    · rcases ih x hx c hc with h0 | h0
      · simp at h0
      · right; simp at h0 ⊢; tauto
  | case7 c1 c2 rest acc h1 h2 ih =>
    intro x hx c hc
    simp only [pySplitlinesGo, if_neg h1, if_neg h2] at hx
    rcases ih x hx c hc with h0 | h0
    · simp at h0
      rcases h0 with h0 | h0
      · right; simp [h0]
      · left; exact h0
    · right; simp at h0 ⊢; tauto

theorem mem_pySplitlines_chars (s : String) (x : String) (hx : x ∈ pySplitlines s)
    (c : Char) (hc : c ∈ x.data) : c ∈ s.data := by
  rcases mem_pySplitlinesGo_chars s.data [] x hx c hc with h | h
  · simp at h
  · exact h

theorem pySplitlinesGo_append (a : List Char) (l : List Char) (acc : List Char)
    (ha : ∀ c ∈ a, isLineBreak c = false) (hl : l ≠ []) :
    pySplitlinesGo (a ++ l) acc = pySplitlinesGo l (a.reverse ++ acc) := by
  induction a generalizing acc with
  | nil => simp
  | cons x a2 ih =>
    have hx : isLineBreak x = false := ha x (by simp)
    have hxr : ¬ x = '\r' := by
      intro h
      subst h
      simp [isLineBreak] at hx
    cases hal : a2 ++ l with
    | nil =>
      rcases List.append_eq_nil.mp hal with ⟨_, h2⟩
      exact absurd h2 hl
    | cons y ys =>
      rw [List.cons_append, hal]
      simp only [pySplitlinesGo]
      rw [if_neg (by simp [hxr]), if_neg (by simp [hx])]
      rw [← hal, ih (x :: acc) (fun c hc => ha c (by simp [hc]))]
      simp

theorem pyJoin_pySplitlinesGo (l acc : List Char)
    (h : ∀ c ∈ l, isLineBreak c = true → c = '\n') :
    (pyJoin "\n" (pySplitlinesGo l acc)).data = acc.reverse ++ rejoin l := by
  induction l, acc using pySplitlinesGo.induct with
  | case1 acc ha =>
    have : acc = [] := by simpa using ha
    subst this
    simp [pySplitlinesGo, pyJoin, rejoin]
  | case2 acc ha =>
    simp [pySplitlinesGo, ha, pyJoin, rejoin]
  | case3 c acc hc =>
    have hcn : c = '\n' := h c (by simp) hc
    subst hcn
    simp [pySplitlinesGo, pyJoin, rejoin]
  | case4 c acc hc =>
    have hcn : ¬ c = '\n' := by
      intro h0
      subst h0
      simp [isLineBreak] at hc
    simp [pySplitlinesGo, hc, pyJoin, rejoin, hcn]
  | case5 c1 c2 rest acc hc ih =>
    have h1 : c1 = '\r' := by
      have := hc
      simp at this
      exact this.1
    have : c1 = '\n' := h c1 (by simp) (by simp [h1, isLineBreak])
    rw [h1] at this
    simp at this
  | case6 c1 c2 rest acc h1 h2 ih =>
    have hc1 : c1 = '\n' := h c1 (by simp) h2
    have hrec : ∀ c ∈ c2 :: rest, isLineBreak c = true → c = '\n' := by
      intro c hc hb
      exact h c (by simp [hc]) hb
    have ihx := ih hrec
    have hne : pySplitlinesGo (c2 :: rest) [] ≠ [] :=
      pySplitlinesGo_ne_nil (c2 :: rest) [] (by simp)
    cases ht : pySplitlinesGo (c2 :: rest) [] with
    | nil => exact absurd ht hne
    | cons b r =>
      rw [ht] at ihx
      simp only [pySplitlinesGo, if_neg h1, if_pos h2, ht, pyJoin]
      subst hc1
      simp only [rejoin]
      rw [data_of_append, data_of_append]
      simp [ihx]
  | case7 c1 c2 rest acc h1 h2 ih =>
    have hrec : ∀ c ∈ c2 :: rest, isLineBreak c = true → c = '\n' := by
      intro c hc hb
      exact h c (by simp [hc]) hb
    have ihx := ih hrec
    simp only [pySplitlinesGo, if_neg h1, if_neg h2]
    rw [ihx]
    have hc1n : ¬ c1 = '\n' := by
      intro h0
      subst h0
      simp [isLineBreak] at h2
    simp [rejoin, hc1n]

theorem rejoin_eq_or (l : List Char) : rejoin l = l ∨ rejoin l ++ ['\n'] = l := by
  induction l with
  | nil => left; rfl
  | cons c rest ih =>
    cases rest with
    | nil =>
      by_cases hc : c = '\n'
      · subst hc
        right
        simp [rejoin]
      · left
        simp [rejoin, hc]
    | cons c2 r2 =>
      simp only [rejoin]
      rcases ih with h | h
      · left
        rw [h]
      · right
        rw [List.cons_append, h]

theorem pyStripL_append_newline (x : List Char) :
    pyStripL (x ++ ['\n']) = pyStripL x := by
  unfold pyStripL dropTrail
  rw [List.reverse_append]
  simp [List.dropWhile_cons, pyIsSpace]

theorem pyStripL_eq_nil (l : List Char) (h : ∀ c ∈ l, pyIsSpace c = true) :
    pyStripL l = [] := by
  unfold pyStripL
  rw [List.dropWhile_eq_nil_iff]
  intro a ha
  exact h a (mem_dropTrail _ _ _ ha)

theorem pyStripL_ne_nil (l : List Char) (c : Char) (hc : c ∈ l)
    (hns : pyIsSpace c = false) : pyStripL l ≠ [] := by
  intro h0
  unfold pyStripL at h0
  rw [List.dropWhile_eq_nil_iff] at h0
  have hall : ∀ a ∈ l, pyIsSpace a = true := by
    intro a ha
    rw [← dropTrail_append pyIsSpace l] at ha
    rcases List.mem_append.mp ha with h | h
    · exact h0 a h
    · exact List.mem_takeWhile_imp (List.mem_reverse.mp h)
  rw [hall c hc] at hns
  simp at hns

theorem dropTrail_eq_self (p : Char → Bool) (l : List Char)
    (h : ∀ c ∈ l, p c = false) : dropTrail p l = l := by
  unfold dropTrail
  have : l.reverse.dropWhile p = l.reverse := by
    cases hr : l.reverse with
    | nil => rfl
    | cons x xs =>
      rw [List.dropWhile_cons_of_neg]
      have hx : x ∈ l := by
        rw [← List.mem_reverse, hr]
        simp
      rw [h x hx]
      simp
  rw [this, List.reverse_reverse]

theorem mem_pyJoin_chars (sep : String) (parts : List String) (c : Char)
    (hc : c ∈ (pyJoin sep parts).data) :
    c ∈ sep.data ∨ ∃ x ∈ parts, c ∈ x.data := by
  induction parts with
  | nil => simp [pyJoin] at hc
  | cons a rest ih =>
    cases rest with
    | nil =>
      right
      exact ⟨a, by simp, by simpa [pyJoin] using hc⟩
    | cons b r =>
      simp only [pyJoin] at hc
      rw [data_of_append, data_of_append] at hc
      rw [List.mem_append, List.mem_append] at hc
      rcases hc with (hc | hc) | hc
      · right; exact ⟨a, by simp, hc⟩
      · left; exact hc
      · rcases ih hc with h | ⟨x, hx, hcx⟩
        · left; exact h
        · right
          refine ⟨x, ?_, hcx⟩
          simp at hx ⊢
          tauto

theorem trigger_semi (line : String) (h : pyEndsWith (pyRstrip line) ';' = true) :
    ';' ∈ line.data := by
  unfold pyEndsWith at h
  split at h
  · next x hg =>
    have hx : x = ';' := by simpa using h
    subst hx
    exact mem_dropTrail pyIsSpace line.data ';' (getLast?_mem hg)
  · simp at h

theorem splitGo_no_trigger (lines buffer : List String)
    (h : ∀ line ∈ lines, pyEndsWith (pyRstrip line) ';' = false) :
    splitGo lines buffer = splitFinal (buffer ++ lines) := by
  induction lines generalizing buffer with
  | nil => simp [splitGo]
  | cons line rest ih =>
    have hl := h line (by simp)
    simp only [splitGo, hl]
    rw [ih (buffer ++ [line]) (fun l2 hl2 => h l2 (by simp [hl2]))]
    simp

/-! ## Claims -/

/-- Claim C1, counterexample: with the driver absent, a `postgresql://`
target makes `connect_database` raise `SystemExit` — a process-level abort,
not a typed `MissingDriver` error the caller can handle. -/
theorem C1_counterexample :
    connect_database false "postgresql://user@host/db"
        = ConnectOutcome.systemExit missingDriverMsg ∧
      isProcessLevelAbort (connect_database false "postgresql://user@host/db") = true :=
  ⟨rfl, rfl⟩

/-- Claim C1 as amended: when the target starts with `postgres://` or
`postgresql://` and `psycopg2` is absent, `connect_database` raises
`SystemExit` with an installation message — a process-level abort rather
than a catchable typed error — and it short-circuits before any network
attempt (`psycopg2.connect` is never reached). -/
theorem C1_missing_driver_aborts (db_path : String)
    (h : (pyStartsWith db_path "postgres://" ||
        pyStartsWith db_path "postgresql://") = true) :
    connect_database false db_path = ConnectOutcome.systemExit missingDriverMsg ∧
      isProcessLevelAbort (connect_database false db_path) = true ∧
      ∀ t, connect_database false db_path ≠ ConnectOutcome.remoteConnect t := by
  simp [connect_database, h, isProcessLevelAbort]

/-- Witness for `C1_missing_driver_aborts` at the concrete target
`postgresql://user@host/db`. -/
theorem C1_missing_driver_aborts_witness :
    connect_database false "postgresql://user@host/db"
        = ConnectOutcome.systemExit missingDriverMsg ∧
      isProcessLevelAbort (connect_database false "postgresql://user@host/db") = true ∧
      ∀ t, connect_database false "postgresql://user@host/db"
        ≠ ConnectOutcome.remoteConnect t :=
  C1_missing_driver_aborts "postgresql://user@host/db" (by decide)

/-- Claim C2: when `cursor.execute` raises, `run_statement` does not
propagate the exception: it returns `"Error: "` plus the underlying
message, and `commit` is still performed (as it is on every
non-propagating outcome, success included).  The hypothesis is the
client-state invariant that an open cursor implies an open connection. -/
theorem C2_run_statement_error_path (run : String → ExecResult)
    (c : DatabaseClient) (sql : String)
    (hinv : c.cursor = true → c.connection = true) :
    (∀ msg, run sql = ExecResult.raises msg →
      c.run_statement run sql = some ("Error: " ++ msg, true, c.ensure_cursor)) ∧
    (∀ out, execute_statement run sql = some out →
      c.run_statement run sql = some (out, true, c.ensure_cursor)) := by
  have hconn := ensure_cursor_connection c hinv
  constructor
  · intro msg hmsg
    simp [DatabaseClient.run_statement, execute_statement, hmsg, hconn]
  · intro out hout
    simp [DatabaseClient.run_statement, hout, hconn]

/-- Witness for `C2_run_statement_error_path`: a failing statement on a
fresh in-memory client yields the prefixed message and a commit. -/
theorem C2_run_statement_error_path_witness :
    DatabaseClient.run_statement (fun _ => ExecResult.raises "no such table t")
        { target := ":memory:", connection := false, cursor := false } "SELECT * FROM t"
      = some ("Error: no such table t", true,
          { target := ":memory:", connection := true, cursor := true }) :=
  (C2_run_statement_error_path (fun _ => ExecResult.raises "no such table t")
    { target := ":memory:", connection := false, cursor := false }
    "SELECT * FROM t" (by simp)).1 "no such table t" rfl

/-- Claim C4: `Split` on `"SELECT 1;\nSELECT 2;"` and on
`"SELECT 1;\nSELECT 2"` (no trailing `;`) both yield exactly
`["SELECT 1", "SELECT 2"]`. -/
theorem C4_split_round_trip :
    _split_statements "SELECT 1;\nSELECT 2;" = ["SELECT 1", "SELECT 2"] ∧
      _split_statements "SELECT 1;\nSELECT 2" = ["SELECT 1", "SELECT 2"] :=
  ⟨rfl, rfl⟩

/-- Claim C8: `close` never raises — it always returns normally with both
handles cleared; on a never-opened client it is a no-op; a second close
after a first is a no-op; any error from the backend `close` is
suppressed. -/
theorem C8_close_never_raises (connClose : Except String Unit) (c : DatabaseClient) :
    c.close connClose
        = Except.ok { target := c.target, connection := false, cursor := false } ∧
      (c.connection = false → c.cursor = false → c.close connClose = Except.ok c) ∧
      ∀ c' connClose2, c.close connClose = Except.ok c' →
        c'.close connClose2 = Except.ok c' := by
  refine ⟨?_, ?_, ?_⟩
  · simp [DatabaseClient.close, suppress_ok]
  · intro h1 h2
    obtain ⟨t, conn, cur⟩ := c
    simp only at h1 h2
    subst h1
    subst h2
    simp [DatabaseClient.close, suppress_ok]
  · intro c' connClose2 h
    simp [DatabaseClient.close, suppress_ok] at h ⊢
    simp [← h]

/-- Witness for `C8_close_never_raises`: closing a never-opened client
while the backend close would raise is still a no-op. -/
theorem C8_close_never_raises_witness :
    DatabaseClient.close
        { target := ":memory:", connection := false, cursor := false }
        (Except.error "interpreter shutdown")
      = Except.ok { target := ":memory:", connection := false, cursor := false } :=
  (C8_close_never_raises (Except.error "interpreter shutdown")
    { target := ":memory:", connection := false, cursor := false }).2.1 rfl rfl

/-- Claim C9: connection routing is decided purely by prefix — a target
starting with `postgres://` or `postgresql://` takes the remote-backend
path, every other target takes the embedded `sqlite3` path. -/
theorem C9_target_routing (psycopg2Available : Bool) (target : String) :
    ((pyStartsWith target "postgres://" ||
        pyStartsWith target "postgresql://") = true →
      takesRemotePath (connect_database psycopg2Available target) = true) ∧
    ((pyStartsWith target "postgres://" ||
        pyStartsWith target "postgresql://") = false →
      connect_database psycopg2Available target
        = ConnectOutcome.embeddedConnect target) := by
  constructor
  · intro h
    cases psycopg2Available <;> simp [connect_database, h, takesRemotePath]
  · intro h
    simp [connect_database, h]

/-- Witness for `C9_target_routing` at the spec's example targets:
`postgresql://user@host/db` routes remote, `:memory:` and `/tmp/x.db`
route embedded. -/
theorem C9_target_routing_witness :
    takesRemotePath (connect_database true "postgresql://user@host/db") = true ∧
      connect_database true ":memory:" = ConnectOutcome.embeddedConnect ":memory:" ∧
      connect_database true "/tmp/x.db" = ConnectOutcome.embeddedConnect "/tmp/x.db" :=
  ⟨(C9_target_routing true "postgresql://user@host/db").1 (by decide),
   (C9_target_routing true ":memory:").2 (by decide),
   (C9_target_routing true "/tmp/x.db").2 (by decide)⟩

/-- Claim C10: `format_rows` returns normally exactly when no row has more
cells than there are columns; a longer row makes the width-computation
indexing go out of range (`none`, the `IndexError`). -/
theorem C10_format_rows_total_iff (columns : List String) (rows : List (List SqlValue)) :
    (format_rows columns rows).isSome = true ↔
      ∀ row ∈ rows, row.length ≤ columns.length := by
  simp only [format_rows, computeWidths]
  rw [isSome_opt_map, widthsLoop_isSome]
  constructor
  · intro h row hrow
    have := h (row.map _format_cell) (List.mem_map_of_mem _ hrow)
    simpa using this
  · intro h row hrow
    rcases List.mem_map.mp hrow with ⟨r, hr, rfl⟩
    simpa using h r hr

/-- Witness for `C10_format_rows_total_iff`: a one-cell row under one
column renders; a two-cell row under one column raises. -/
theorem C10_format_rows_total_iff_witness :
    (format_rows ["x"] [[SqlValue.intV 1]]).isSome = true ∧
      ¬ (format_rows ["x"] [[SqlValue.intV 1, SqlValue.intV 2]]).isSome = true :=
  ⟨(C10_format_rows_total_iff ["x"] [[SqlValue.intV 1]]).mpr (by decide),
   fun h => by
    have := (C10_format_rows_total_iff ["x"] [[SqlValue.intV 1, SqlValue.intV 2]]).mp h
      [SqlValue.intV 1, SqlValue.intV 2] (by simp)
    simp at this⟩

/-- Claim C3, counterexample: the statement emitted for `"SELECT 1 ;"` is
`"SELECT 1 "`, which carries trailing whitespace — `strip()` runs before
`rstrip(";")`, so whitespace in front of the final `;` survives. -/
theorem C3_counterexample :
    _split_statements "SELECT 1 ;" = ["SELECT 1 "] ∧
      ("SELECT 1 " : String).data.getLast? = some ' ' ∧ pyIsSpace ' ' = true :=
  ⟨rfl, rfl, rfl⟩

/-- Claim C3 as amended: every statement emitted by `Split` equals some
accumulated buffer joined with newlines, whitespace-trimmed, then with all
trailing `;` removed — hence it is non-empty, has no leading whitespace and
does not end with `;`; it may, however, retain trailing whitespace that
stood in front of a removed semicolon. -/
theorem C3_emitted_statement_shape (sql s : String) (h : s ∈ _split_statements sql) :
    (∃ t, s = pyRstripSemi (pyStrip t)) ∧ s ≠ "" ∧
      (∀ c, s.data.head? = some c → pyIsSpace c = false) ∧
      (∀ c, s.data.getLast? = some c → c ≠ ';') := by
  obtain ⟨⟨t, rfl⟩, hne⟩ := mem_splitGo (pySplitlines sql) [] s h
  refine ⟨⟨t, rfl⟩, hne, ?_, ?_⟩
  · intro c hc
    exact pyRstripSemi_pyStrip_head t c hc
  · intro c hc
    exact pyRstripSemi_pyStrip_last t c hc

/-- Witness for `C3_emitted_statement_shape` at the first statement of
`"SELECT a;\nSELECT b"`. -/
theorem C3_emitted_statement_shape_witness :
    (∃ t, ("SELECT a" : String) = pyRstripSemi (pyStrip t)) ∧ ("SELECT a" : String) ≠ "" ∧
      (∀ c, ("SELECT a" : String).data.head? = some c → pyIsSpace c = false) ∧
      (∀ c, ("SELECT a" : String).data.getLast? = some c → c ≠ ';') :=
  C3_emitted_statement_shape "SELECT a;\nSELECT b" "SELECT a" (by decide)

/-- Claim C7, counterexample: `Split` on `"a\r\nb"` (non-blank, no `;`)
yields `["a\nb"]`, not the whole input whitespace-trimmed (`"a\r\nb"`):
`splitlines` normalises the `\r\n` terminator away before rejoining. -/
theorem C7_counterexample :
    _split_statements "a\r\nb" = ["a\nb"] ∧ pyStrip "a\r\nb" = "a\r\nb" ∧
      ("a\nb" : String) ≠ "a\r\nb" :=
  ⟨rfl, rfl, by decide⟩

/-- Claim C7 as amended: fully blank input (empty or whitespace-only)
yields zero statements; non-blank input without `;` yields exactly one
statement — equal to the whole input whitespace-trimmed whenever every
line terminator occurring in the input is `"\n"`. -/
theorem C7_blank_and_no_semicolon (sql : String) :
    ((∀ c ∈ sql.data, pyIsSpace c = true) → _split_statements sql = []) ∧
      ((∀ c ∈ sql.data, c ≠ ';') → (∃ c ∈ sql.data, pyIsSpace c = false) →
        (∀ c ∈ sql.data, isLineBreak c = true → c = '\n') →
        _split_statements sql = [pyStrip sql]) := by
  constructor
  · intro hws
    have htrig : ∀ line ∈ pySplitlines sql, pyEndsWith (pyRstrip line) ';' = false := by
      intro line hline
      cases ht : pyEndsWith (pyRstrip line) ';'
      · rfl
      · have hsemi := trigger_semi line ht
        have : pyIsSpace ';' = true := hws ';' (mem_pySplitlines_chars sql line hline ';' hsemi)
        exact absurd this (by decide)
    unfold _split_statements
    rw [splitGo_no_trigger _ [] htrig]
    simp only [List.nil_append]
    unfold splitFinal
    by_cases hb : (pySplitlines sql).isEmpty
    · simp [hb]
    · rw [if_neg hb]
      have hstrip : pyStripL (pyJoin "\n" (pySplitlines sql)).data = [] := by
        apply pyStripL_eq_nil
        intro c hc
        rcases mem_pyJoin_chars "\n" (pySplitlines sql) c hc with h | ⟨x, hx, hcx⟩
        · have hn : ("\n" : String).data = ['\n'] := rfl
          rw [hn] at h
          simp at h
          subst h
          decide
        · exact hws c (mem_pySplitlines_chars sql x hx c hcx)
      have hstmt : pyRstripSemi (pyStrip (pyJoin "\n" (pySplitlines sql))) = "" := by
        have hd : pyRstripSemi (pyStrip (pyJoin "\n" (pySplitlines sql)))
            = String.mk (dropTrail (fun c => c == ';')
                (pyStripL (pyJoin "\n" (pySplitlines sql)).data)) := rfl
        rw [hd, hstrip]
        rfl
      simp [hstmt]
  · intro hsemi hnonblank honly
    have htrig : ∀ line ∈ pySplitlines sql, pyEndsWith (pyRstrip line) ';' = false := by
      intro line hline
      cases ht : pyEndsWith (pyRstrip line) ';'
      · rfl
      · have h1 := trigger_semi line ht
        have := hsemi ';' (mem_pySplitlines_chars sql line hline ';' h1)
        simp at this
    obtain ⟨c0, hc0, hc0ns⟩ := hnonblank
    have hdne : sql.data ≠ [] := by
      intro h0
      rw [h0] at hc0
      simp at hc0
    have hne : pySplitlines sql ≠ [] := pySplitlinesGo_ne_nil sql.data [] hdne
    unfold _split_statements
    rw [splitGo_no_trigger _ [] htrig]
    simp only [List.nil_append]
    unfold splitFinal
    rw [if_neg (by simpa [List.isEmpty_iff] using hne)]
    have hjoin : (pyJoin "\n" (pySplitlines sql)).data = rejoin sql.data := by
      have := pyJoin_pySplitlinesGo sql.data [] honly
      simpa using this
    have hstrip : pyStrip (pyJoin "\n" (pySplitlines sql)) = pyStrip sql := by
      unfold pyStrip
      rw [hjoin]
      rcases rejoin_eq_or sql.data with h | h
      · rw [h]
      · conv_rhs => rw [← h]
        rw [pyStripL_append_newline]
    have hstmt : pyRstripSemi (pyStrip (pyJoin "\n" (pySplitlines sql))) = pyStrip sql := by
      rw [hstrip]
      have hd : pyRstripSemi (pyStrip sql)
          = String.mk (dropTrail (fun c => c == ';') (pyStripL sql.data)) := rfl
      rw [hd, dropTrail_eq_self]
      · rfl
      · intro c hcm
        have := hsemi c (mem_pyStripL sql.data c hcm)
        simp [this]
    have hnee : pyStrip sql ≠ "" := by
      intro h0
      unfold pyStrip at h0
      rw [String_mk_eq_empty_iff] at h0
      exact pyStripL_ne_nil sql.data c0 hc0 hc0ns h0
    simp [hstmt, hnee]

/-- Witness for `C7_blank_and_no_semicolon`: a whitespace-only input
splits to nothing; a semicolon-free two-line statement splits to exactly
its trimmed self. -/
theorem C7_blank_and_no_semicolon_witness :
    _split_statements " \n\t " = [] ∧
      _split_statements " SELECT 1\n FROM t " = [pyStrip " SELECT 1\n FROM t "] :=
  ⟨(C7_blank_and_no_semicolon " \n\t ").1 (by decide),
   (C7_blank_and_no_semicolon " SELECT 1\n FROM t ").2 (by decide) (by decide) (by decide)⟩

theorem String_length_append (x y : String) : (x ++ y).length = x.length + y.length :=
  List.length_append x.data y.data

theorem ljust_length (s : String) (w : Nat) :
    (ljust s w).length = s.length + (w - s.length) := by
  unfold ljust
  rw [String_length_append]
  have h : (String.mk (List.replicate (w - s.length) ' ')).length = w - s.length := by
    show (List.replicate (w - s.length) ' ').length = _
    simp
  rw [h]

theorem pyJoin_length (sep : String) (parts : List String) :
    (pyJoin sep parts).length
      = (parts.map String.length).sum + sep.length * (parts.length - 1) := by
  induction parts with
  | nil => simp [pyJoin]
  | cons a rest ih =>
    cases rest with
    | nil => simp [pyJoin]
    | cons b r =>
      simp only [pyJoin] at ih ⊢
      rw [String_length_append, String_length_append, ih]
      simp only [List.map_cons, List.sum_cons, List.length_cons, Nat.add_sub_cancel]
      ring

theorem updateWidthsAux_eq_zip (ws : List Nat) (row : List String)
    (h : row.length = ws.length) :
    updateWidthsAux ws row
      = some (List.zipWith (fun w v => Nat.max w v.length) ws row) := by
  induction row generalizing ws with
  | nil =>
    cases ws with
    | nil => rfl
    | cons w ws2 => simp at h
  | cons v vs ih =>
    cases ws with
    | nil => simp at h
    | cons w ws2 =>
      simp only [updateWidthsAux, List.zipWith_cons_cons]
      rw [ih ws2 (by simpa using h)]
      rfl

theorem getD_zipWithMax (ws : List Nat) (row : List String) (i : Nat)
    (h : row.length = ws.length) :
    (List.zipWith (fun w v => Nat.max w v.length) ws row).getD i 0
      = Nat.max (ws.getD i 0) ((row.getD i "").length) := by
  induction ws generalizing row i with
  | nil =>
    cases row with
    | nil => simp
    | cons v vs => simp at h
  | cons w ws2 ih =>
    cases row with
    | nil => simp at h
    | cons v vs =>
      cases i with
      | zero => simp
      | succ j =>
        simp only [List.zipWith_cons_cons, List.getD_cons_succ]
        exact ih vs j (by simpa using h)

theorem foldr_max_shuffle (d : List (List String)) (f : List String → Nat) (W R : Nat) :
    d.foldr (fun r a => Nat.max (f r) a) (Nat.max W R)
      = Nat.max R (d.foldr (fun r a => Nat.max (f r) a) W) := by
  induction d with
  | nil => simp [Nat.max_comm]
  | cons r2 d2 ih =>
    simp only [List.foldr_cons, ih, Nat.max_eq_max]
    exact max_left_comm _ _ _

theorem foldr_max_ge_init (d : List (List String)) (f : List String → Nat) (W : Nat) :
    W ≤ d.foldr (fun r a => Nat.max (f r) a) W := by
  induction d with
  | nil => simp
  | cons r2 d2 ih =>
    simp only [List.foldr_cons]
    exact le_trans ih (Nat.le_max_right _ _)

theorem widthsLoop_spec (data : List (List String)) (ws : List Nat)
    (hinv : ∀ r ∈ data, r.length = ws.length) :
    ∃ ws', widthsLoop data ws = some ws' ∧ ws'.length = ws.length ∧
      ∀ i, ws'.getD i 0
        = data.foldr (fun r acc => Nat.max (r.getD i "").length acc) (ws.getD i 0) := by
  induction data generalizing ws with
  | nil => exact ⟨ws, rfl, rfl, by simp⟩
  | cons r d ih =>
    have hr : r.length = ws.length := hinv r (by simp)
    have hzip := updateWidthsAux_eq_zip ws r hr
    have hlen : (List.zipWith (fun w v => Nat.max w v.length) ws r).length = ws.length := by
      simp only [List.length_zipWith]
      omega
    have hdinv : ∀ x ∈ d,
        x.length = (List.zipWith (fun w v => Nat.max w v.length) ws r).length := by
      rw [hlen]
      intro x hx
      exact hinv x (by simp [hx])
    obtain ⟨ws', h1, h2, h3⟩ := ih _ hdinv
    refine ⟨ws', ?_, by rw [h2, hlen], ?_⟩
    · simp only [widthsLoop, hzip]
      exact h1
    · intro i
      rw [h3 i, getD_zipWithMax ws r i hr, List.foldr_cons]
      exact foldr_max_shuffle d (fun x => (x.getD i "").length) _ _

theorem getD_map_length (cols : List String) (i : Nat) :
    (cols.map String.length).getD i 0 = (cols.getD i "").length := by
  induction cols generalizing i with
  | nil => simp
  | cons c cs ih =>
    cases i with
    | zero => simp
    | succ j => simpa using ih j

theorem map_length_zipWith_ljust (cols : List String) (ws : List Nat)
    (hlen : cols.length = ws.length)
    (hge : ∀ i, (cols.getD i "").length ≤ ws.getD i 0) :
    List.map String.length (List.zipWith ljust cols ws) = ws := by
  induction cols generalizing ws with
  | nil =>
    cases ws with
    | nil => rfl
    | cons w ws2 => simp at hlen
  | cons c cs ih =>
    cases ws with
    | nil => simp at hlen
    | cons w ws2 =>
      simp only [List.zipWith_cons_cons, List.map_cons]
      congr 1
      · rw [ljust_length]
        have h0 := hge 0
        simp at h0
        omega
      · refine ih ws2 (by simpa using hlen) ?_
        intro i
        simpa using hge (i + 1)

theorem map_length_dashes (ws : List Nat) :
    List.map String.length (ws.map (fun w => String.mk (List.replicate w '-'))) = ws := by
  rw [List.map_map]
  have h : (String.length ∘ fun w => String.mk (List.replicate w '-')) = id := by
    funext w
    show (List.replicate w '-').length = w
    simp
  rw [h, List.map_id]

theorem headerLine_length_eq (cols : List String) (ws : List Nat)
    (hlen : cols.length = ws.length)
    (hge : ∀ i, (cols.getD i "").length ≤ ws.getD i 0) :
    (headerLine cols ws).length = (separatorLine ws).length := by
  unfold headerLine separatorLine
  rw [pyJoin_length, pyJoin_length,
    map_length_zipWith_ljust cols ws hlen hge, map_length_dashes]
  have h1 : (List.zipWith ljust cols ws).length = ws.length := by
    simp only [List.length_zipWith]
    omega
  have h2 : (ws.map (fun w => String.mk (List.replicate w '-'))).length = ws.length := by
    simp
  rw [h1, h2]
  rfl

/-- Claim C5: under the ResultSet invariant, the width computation
succeeds; each column's width equals the maximum of the header's length
and the lengths of all formatted cells of that column; the header line and
the separator line have equal total length; every body line is built from
exactly as many cells as the header line; and `format_rows` assembles
exactly these pieces. -/
theorem C5_format_rows_aligned (columns : List String) (rows : List (List SqlValue))
    (_hcols : columns ≠ [])
    (hinv : ∀ r ∈ rows, r.length = columns.length) :
    ∃ ws, computeWidths columns (rows.map (List.map _format_cell)) = some ws ∧
      ws.length = columns.length ∧
      (∀ i, ws.getD i 0
        = (rows.map (List.map _format_cell)).foldr
            (fun r acc => Nat.max (r.getD i "").length acc)
            ((columns.getD i "").length)) ∧
      (headerLine columns ws).length = (separatorLine ws).length ∧
      (∀ r ∈ rows.map (List.map _format_cell),
        (List.zipWith ljust r ws).length = (List.zipWith ljust columns ws).length) ∧
      format_rows columns rows
        = some (assemble [headerLine columns ws, separatorLine ws,
            bodyBlock ws (rows.map (List.map _format_cell))]) := by
  have hdinv : ∀ r ∈ rows.map (List.map _format_cell),
      r.length = (columns.map String.length).length := by
    intro r hr
    rcases List.mem_map.mp hr with ⟨r0, hr0, rfl⟩
    simp [hinv r0 hr0]
  obtain ⟨ws, h1, h2, h3⟩ := widthsLoop_spec (rows.map (List.map _format_cell))
    (columns.map String.length) hdinv
  have h2' : ws.length = columns.length := by simpa using h2
  have h3' : ∀ i, ws.getD i 0
      = (rows.map (List.map _format_cell)).foldr
          (fun r acc => Nat.max (r.getD i "").length acc)
          ((columns.getD i "").length) := by
    intro i
    rw [h3 i, getD_map_length]
  have hge : ∀ i, (columns.getD i "").length ≤ ws.getD i 0 := by
    intro i
    rw [h3' i]
    exact foldr_max_ge_init _ _ _
  refine ⟨ws, h1, h2', h3', headerLine_length_eq columns ws h2'.symm hge, ?_, ?_⟩
  · intro r hr
    have hrlen : r.length = (columns.map String.length).length := hdinv r hr
    simp only [List.length_zipWith]
    simp at hrlen
    omega
  · simp only [format_rows, computeWidths] at h1 ⊢
    rw [h1]
    rfl

/-- Witness for `C5_format_rows_aligned` on a one-column, one-row
ResultSet. -/
theorem C5_format_rows_aligned_witness :
    ∃ ws, computeWidths ["x"] ([[SqlValue.intV 1]].map (List.map _format_cell)) = some ws ∧
      ws.length = (["x"] : List String).length ∧
      (∀ i, ws.getD i 0
        = ([[SqlValue.intV 1]].map (List.map _format_cell)).foldr
            (fun r acc => Nat.max (r.getD i "").length acc)
            (((["x"] : List String).getD i "").length)) ∧
      (headerLine ["x"] ws).length = (separatorLine ws).length ∧
      (∀ r ∈ [[SqlValue.intV 1]].map (List.map _format_cell),
        (List.zipWith ljust r ws).length = (List.zipWith ljust ["x"] ws).length) ∧
      format_rows ["x"] [[SqlValue.intV 1]]
        = some (assemble [headerLine ["x"] ws, separatorLine ws,
            bodyBlock ws ([[SqlValue.intV 1]].map (List.map _format_cell))]) :=
  C5_format_rows_aligned ["x"] [[SqlValue.intV 1]] (by simp) (by simp)

theorem String_append_empty (s : String) : s ++ "" = s := by
  cases s with
  | mk l =>
    show String.mk (l ++ []) = String.mk l
    rw [List.append_nil]

theorem String_ne_empty_of_length_pos (s : String) (h : 0 < s.length) : s ≠ "" := by
  intro h0
  subst h0
  simp at h

theorem ljust_self (c : String) : ljust c c.length = c := by
  unfold ljust
  rw [Nat.sub_self]
  exact String_append_empty c

theorem zipWith_ljust_self (cols : List String) :
    List.zipWith ljust cols (cols.map String.length) = cols := by
  induction cols with
  | nil => rfl
  | cons c cs ih =>
    simp only [List.map_cons, List.zipWith_cons_cons, ih]
    rw [ljust_self]

theorem pySplitlinesGo_all_nobreak (l acc : List Char)
    (hl : ∀ c ∈ l, isLineBreak c = false) (h : ¬(l = [] ∧ acc = [])) :
    pySplitlinesGo l acc = [String.mk (acc.reverse ++ l)] := by
  induction l, acc using pySplitlinesGo.induct with
  | case1 acc ha =>
    exact absurd ⟨rfl, by simpa using ha⟩ h
  | case2 acc ha =>
    simp [pySplitlinesGo, ha]
  | case3 c acc hc =>
    rw [hl c (by simp)] at hc
    simp at hc
  | case4 c acc hc =>
    simp [pySplitlinesGo, hc]
  | case5 c1 c2 rest acc hc ih =>
    exfalso
    have h1 : c1 = '\r' := by
      simp at hc
      exact hc.1
    have h2 := hl c1 (by simp)
    rw [h1] at h2
    simp [isLineBreak] at h2
  | case6 c1 c2 rest acc h1 h2 ih =>
    exfalso
    have h3 := hl c1 (by simp)
    rw [h3] at h2
    simp at h2
  | case7 c1 c2 rest acc h1 h2 ih =>
    simp only [pySplitlinesGo, if_neg h1, if_neg h2]
    rw [ih (fun c hc => hl c (by simp [hc])) (by simp)]
    simp

theorem pySplitlines_two_lines (H S : String)
    (hHnb : ∀ c ∈ H.data, isLineBreak c = false)
    (hSnb : ∀ c ∈ S.data, isLineBreak c = false)
    (hSne : S ≠ "") :
    pySplitlines (H ++ "\n" ++ S) = [H, S] := by
  have hdata : (H ++ "\n" ++ S).data = H.data ++ ('\n' :: S.data) := by
    rw [data_of_append, data_of_append]
    have hn : ("\n" : String).data = ['\n'] := rfl
    rw [hn, List.append_assoc]
    rfl
  unfold pySplitlines
  rw [hdata, pySplitlinesGo_append H.data ('\n' :: S.data) [] hHnb (by simp)]
  cases hS : S.data with
  | nil =>
    have h2 : S = String.mk S.data := rfl
    have : S = "" := by
      rw [h2, hS]
    exact absurd this hSne
  | cons y ys =>
    simp only [pySplitlinesGo]
    rw [if_neg (by simp), if_pos (by decide)]
    have hrec : pySplitlinesGo (y :: ys) [] = [String.mk (y :: ys)] := by
      rw [pySplitlinesGo_all_nobreak (y :: ys) [] (by rw [← hS]; exact hSnb) (by simp)]
      simp
    rw [hrec]
    have hH : String.mk ((H.data.reverse ++ []).reverse) = H := by
      simp
    have hS2 : String.mk (y :: ys) = S := by
      rw [← hS]
    rw [hH, hS2]

/-- Claim C6, counterexample: for the non-empty column list `[""]` with
zero rows the output is `""` — zero lines, not a header line plus a
separator line; and for zero columns with two (invariant-respecting,
empty) rows the output is `"\n"`, not the empty string. -/
theorem C6_counterexample :
    format_rows [""] [] = some "" ∧ pySplitlines "" = [] ∧
      format_rows [] [[], []] = some "\n" :=
  ⟨rfl, rfl, rfl⟩

/-- Claim C6 as amended: for every non-empty column list other than the
single empty-named column `[""]`, with no line-break character in any
name, `format_rows` with zero rows produces exactly two lines — the header
line and the separator line, with no trailing blank line; and for zero
columns with zero rows the output is the empty string. -/
theorem C6_zero_rows_two_lines (columns : List String)
    (hne : columns ≠ []) (hne1 : columns ≠ [""])
    (hnb : ∀ x ∈ columns, ∀ c ∈ x.data, isLineBreak c = false) :
    format_rows columns []
        = some (headerLine columns (columns.map String.length) ++ "\n"
            ++ separatorLine (columns.map String.length)) ∧
      pySplitlines (headerLine columns (columns.map String.length) ++ "\n"
          ++ separatorLine (columns.map String.length))
        = [headerLine columns (columns.map String.length),
            separatorLine (columns.map String.length)] ∧
      format_rows [] [] = some "" := by
  set ws := columns.map String.length with hws
  have hlen : columns.length = ws.length := by simp [hws]
  have hge : ∀ i, (columns.getD i "").length ≤ ws.getD i 0 := by
    intro i
    rw [hws, getD_map_length]
  have hHr : headerLine columns ws = pyJoin " | " columns := by
    unfold headerLine
    rw [hws, zipWith_ljust_self]
  have hHlen : (headerLine columns ws).length = ws.sum + 3 * (ws.length - 1) := by
    unfold headerLine
    rw [pyJoin_length, map_length_zipWith_ljust columns ws hlen hge]
    have h1 : (List.zipWith ljust columns ws).length = ws.length := by
      simp only [List.length_zipWith]
      omega
    rw [h1]
    have h3 : (" | " : String).length = 3 := rfl
    rw [h3]
  have hSlen : (separatorLine ws).length = ws.sum + 3 * (ws.length - 1) := by
    unfold separatorLine
    rw [pyJoin_length, map_length_dashes]
    have h3 : ("-+-" : String).length = 3 := rfl
    rw [h3, List.length_map]
  have hpos : 0 < ws.sum + 3 * (ws.length - 1) := by
    cases hcs : columns with
    | nil => exact absurd hcs hne
    | cons c rest =>
      cases hrest : rest with
      | nil =>
        have hc : c ≠ "" := by
          intro h0
          exact hne1 (by rw [hcs, hrest, h0])
        have hcl : 0 < c.length := by
          cases hcg : c.data with
          | nil =>
            exfalso
            apply hc
            cases c with
            | mk l =>
              simp only at hcg
              rw [hcg]
          | cons a as =>
            show 0 < c.data.length
            rw [hcg]
            simp
        rw [hws, hcs, hrest]
        simp only [List.map_cons, List.map_nil, List.sum_cons, List.sum_nil,
          List.length_cons, List.length_nil]
        omega
      | cons c2 rest2 =>
        rw [hws, hcs, hrest]
        simp only [List.map_cons, List.sum_cons, List.length_cons, List.length_map]
        omega
  have hHne : headerLine columns ws ≠ "" :=
    String_ne_empty_of_length_pos _ (by rw [hHlen]; exact hpos)
  have hSne : separatorLine ws ≠ "" :=
    String_ne_empty_of_length_pos _ (by rw [hSlen]; exact hpos)
  have hHnb : ∀ c ∈ (headerLine columns ws).data, isLineBreak c = false := by
    intro c hc
    rw [hHr] at hc
    rcases mem_pyJoin_chars " | " columns c hc with h | ⟨x, hx, hcx⟩
    · have : (" | " : String).data = [' ', '|', ' '] := rfl
      rw [this] at h
      fin_cases h <;> decide
    · exact hnb x hx c hcx
  have hSnb : ∀ c ∈ (separatorLine ws).data, isLineBreak c = false := by
    intro c hc
    unfold separatorLine at hc
    rcases mem_pyJoin_chars "-+-" _ c hc with h | ⟨x, hx, hcx⟩
    · have : ("-+-" : String).data = ['-', '+', '-'] := rfl
      rw [this] at h
      fin_cases h <;> decide
    · rcases List.mem_map.mp hx with ⟨w, hw, rfl⟩
      have : c = '-' := List.eq_of_mem_replicate hcx
      subst this
      decide
  have hfilter : List.filter (fun s => !(s == "")) [headerLine columns ws,
      separatorLine ws, bodyBlock ws []] = [headerLine columns ws, separatorLine ws] := by
    have hb : bodyBlock ws [] = "" := rfl
    rw [hb]
    have h1 : (headerLine columns ws == "") = false := by simp [hHne]
    have h2 : (separatorLine ws == "") = false := by simp [hSne]
    simp [List.filter, h1, h2]
  refine ⟨?_, pySplitlines_two_lines _ _ hHnb hSnb hSne, rfl⟩
  show (computeWidths columns (([] : List (List SqlValue)).map (List.map _format_cell))).map
      (fun col_widths => assemble [headerLine columns col_widths, separatorLine col_widths,
        bodyBlock col_widths (([] : List (List SqlValue)).map (List.map _format_cell))])
    = some (headerLine columns ws ++ "\n" ++ separatorLine ws)
  have hcw2 : computeWidths columns (([] : List (List SqlValue)).map (List.map _format_cell))
      = some ws := rfl
  rw [hcw2]
  show some (assemble [headerLine columns ws, separatorLine ws, bodyBlock ws []])
    = some (headerLine columns ws ++ "\n" ++ separatorLine ws)
  congr 1
  unfold assemble
  rw [hfilter]
  rfl

/-- Witness for `C6_zero_rows_two_lines` at the single column `x`. -/
theorem C6_zero_rows_two_lines_witness :
    format_rows ["x"] []
        = some (headerLine ["x"] (["x"].map String.length) ++ "\n"
            ++ separatorLine (["x"].map String.length)) ∧
      pySplitlines (headerLine ["x"] (["x"].map String.length) ++ "\n"
          ++ separatorLine (["x"].map String.length))
        = [headerLine ["x"] (["x"].map String.length),
            separatorLine (["x"].map String.length)] ∧
      format_rows [] [] = some "" :=
  C6_zero_rows_two_lines ["x"] (by simp) (by simp) (by decide)

end DBClient
